import Mathlib

/-!
Verification of the HTTP-tunneling client (`src/Proxy.ts`, `FetchProxy`) and the
raw HTTP/1.x response parser (`parseRawHttpResponse` in the unnamed source file)
against their specification.

JavaScript strings are modelled as Lean `String`/`List Char` (indices are
character positions; the sources only manipulate wire-level ASCII text).
Platform collaborators that the code calls (the `Headers` class, the `Response`
constructor, `JSON.parse`, `JSON.stringify`, `Number`) are modelled at the
interface the WHATWG/ECMA specifications give them, restricted where noted to
the value domain the relay wire contract (spec section 6) actually uses.
-/

/-- Errors surfaced by the modelled JavaScript code: `new Error(msg)` throws
from the repository code itself, `jsonSyntaxError` is the SyntaxError of
`JSON.parse`, `rangeError`/`typeError` are thrown by the platform `Response`
constructor (WHATWG fetch: status outside 200..599, malformed statusText, or a
body supplied with a null-body status). -/
inductive JsError where
  | error (msg : String)
  | jsonSyntaxError
  | rangeError (status : Nat)
  | typeError
deriving DecidableEq, Repr

/-- Characters removed by JavaScript `String.prototype.trim` (restricted to the
ASCII whitespace actually occurring in HTTP wire text). -/
def isJsSpace (c : Char) : Bool :=
  c == ' ' || c == '\t' || c == '\n' || c == '\r' || c == '\x0b' || c == '\x0c'

/-- `String.prototype.trim`: strip leading and trailing whitespace. -/
def trimChars (l : List Char) : List Char :=
  ((l.dropWhile isJsSpace).reverse.dropWhile isJsSpace).reverse

/-- Byte-lowercasing of header names, as the fetch `Headers` class does for its
case-insensitive name matching (ASCII). -/
def lowerStr (s : String) : String :=
  String.mk (s.data.map Char.toLower)

/-- The fetch `Headers` platform class, modelled per spec section 3 as an
ordered multimap of name/value pairs.  Entries are stored verbatim; name
matching is case-insensitive.  Platform-level field-name validation is outside
the Structured Response data model and is not modelled. -/
structure JsHeaders where
  entries : List (String × String)
deriving DecidableEq, Repr

/-- All values held for a header name, in insertion order (case-insensitive
name match). -/
def JsHeaders.getAll (h : JsHeaders) (name : String) : List String :=
  (h.entries.filter (fun p => lowerStr p.1 == lowerStr name)).map (fun p => p.2)

/-- `Headers.prototype.get`: `null` when absent, otherwise the held values
joined with a comma and a space. -/
def JsHeaders.get (h : JsHeaders) (name : String) : Option String :=
  match h.getAll name with
  | [] => none
  | vs => some (String.intercalate ", " vs)

/-- `Headers.prototype.has`. -/
def JsHeaders.has (h : JsHeaders) (name : String) : Bool :=
  (h.get name).isSome

/-- `Headers.prototype.append`: adds one name/value entry at the end, never
replacing existing entries for the same name. -/
def JsHeaders.append (h : JsHeaders) (n v : String) : JsHeaders :=
  ⟨h.entries ++ [(n, v)]⟩

/-- A JavaScript number as the sources use it: either NaN or an integer. -/
inductive JsNum where
  | nan
  | num (n : Int)
deriving DecidableEq, Repr

/-- Value of a non-empty all-digit character list. -/
def digitsVal : List Char → Option Nat
  | [] => none
  | l =>
    l.foldl (fun acc c => acc.bind (fun a => if c.isDigit then some (a * 10 + (c.toNat - 48)) else none))
      (some 0)

/-- Models the JavaScript `Number` coercion of a string, restricted to
optionally-signed decimal integer literals: whitespace-only strings coerce to
`0`, a signed run of digits to its value, anything else to NaN.  The relay
wire contract (spec section 6) transmits `receivedStatus` as a decimal string,
so the remaining numeric notations JavaScript would accept (fractions,
exponents, hex, Infinity) are outside the modelled domain and mapped to NaN. -/
def jsToNumber (s : String) : JsNum :=
  match trimChars s.data with
  | [] => .num 0
  | '-' :: ds =>
    match digitsVal ds with
    | some n => .num (-(n : Int))
    | none => .nan
  | '+' :: ds =>
    match digitsVal ds with
    | some n => .num (n : Int)
    | none => .nan
  | ds =>
    match digitsVal ds with
    | some n => .num (n : Int)
    | none => .nan

/-- Prepend a character to the first segment of a split result (helper for the
regex-split scanners below). -/
def consHead (c : Char) : List (List Char) → List (List Char)
  | [] => [[c]]
  | seg :: segs => (c :: seg) :: segs

/-- Does the regex `\r?\n\r?\n` (a blank-line boundary, tolerant of both
line-ending styles) match at the head of the list?  The four alternatives are
the possible greedy matches of that pattern. -/
def isBlankStart : List Char → Bool
  | '\r' :: '\n' :: '\r' :: '\n' :: _ => true
  | '\r' :: '\n' :: '\n' :: _ => true
  | '\n' :: '\r' :: '\n' :: _ => true
  | '\n' :: '\n' :: _ => true
  | _ => false

/-- `raw.split(/\r?\n\r?\n/)`: scan left to right, cutting at each blank-line
boundary (greedy match, as the JavaScript regex engine finds it). -/
def blankSplit : List Char → List (List Char)
  | '\r' :: '\n' :: '\r' :: '\n' :: rest => [] :: blankSplit rest
  | '\r' :: '\n' :: '\n' :: rest => [] :: blankSplit rest
  | '\n' :: '\r' :: '\n' :: rest => [] :: blankSplit rest
  | '\n' :: '\n' :: rest => [] :: blankSplit rest
  | c :: rest => consHead c (blankSplit rest)
  | [] => [[]]

/-- `headerPart.split(/\r?\n/)`: split into lines at `\n` or `\r\n`. -/
def lineSplit : List Char → List (List Char)
  | '\r' :: '\n' :: rest => [] :: lineSplit rest
  | '\n' :: rest => [] :: lineSplit rest
  | c :: rest => consHead c (lineSplit rest)
  | [] => [[]]

/-- `statusLine.split(" ")`. -/
def spaceSplit : List Char → List (List Char)
  | ' ' :: rest => [] :: spaceSplit rest
  | c :: rest => consHead c (spaceSplit rest)
  | [] => [[]]

/-- Lines 516-517 of the parser source: split the raw text on blank-line
boundaries; the first part is the header part, the remaining parts are
rejoined with a normalized `"\n\n"` to form the body. -/
def splitHeadersBody (raw : String) : String × String :=
  let parts := blankSplit raw.data
  (String.mk (parts.headD []), String.mk (List.intercalate ['\n', '\n'] parts.tail))

/-- Lines 529-534 of the parser source, one header line: find the first colon
(`line.indexOf(":")`); when there is none the line is skipped, otherwise the
trimmed text before the colon is appended as name with the trimmed text after
it as value. -/
def headerStep (h : JsHeaders) (line : String) : JsHeaders :=
  match line.data.findIdx? (fun c => c == ':') with
  | none => h
  | some idx =>
    h.append (String.mk (trimChars (line.data.take idx)))
      (String.mk (trimChars (line.data.drop (idx + 1))))

/-- WebIDL ToUint16 conversion applied by the `Response` constructor to its
`status` member: NaN becomes 0, integers are taken modulo 2^16. -/
def toUint16 : JsNum → Nat
  | .nan => 0
  | .num n => (n % 65536).toNat

/-- HTTP reason-phrase characters (HTAB / SP / VCHAR / obs-text), the grammar
the `Response` constructor checks `statusText` against. -/
def isReasonPhraseChar (c : Char) : Bool :=
  c.toNat == 9 || (32 ≤ c.toNat && c.toNat ≤ 126) || (128 ≤ c.toNat && c.toNat ≤ 255)

/-- Statuses for which a `Response` may not carry a body. -/
def nullBodyStatus (s : Nat) : Bool :=
  s == 204 || s == 205 || s == 304

/-- The parsed-response value the sources construct: the Structured Response
data model of spec section 3 (status, status text, ordered header multimap,
body). -/
structure ResponseModel where
  status : Nat
  statusText : String
  headers : JsHeaders
  body : String
deriving DecidableEq, Repr

/-- The platform `Response(body, {status, statusText, headers})` constructor
(WHATWG fetch), for the string bodies the parser supplies: ToUint16 the status
and reject it outside 200..599 with a RangeError, reject a malformed
statusText with a TypeError, reject a body with a null-body status with a
TypeError, otherwise produce the structured response. -/
def mkResponse (body : String) (status : JsNum) (statusText : String) (headers : JsHeaders) :
    Except JsError ResponseModel :=
  let s := toUint16 status
  if ¬(200 ≤ s ∧ s ≤ 599) then .error (.rangeError s)
  else if ¬(statusText.data.all isReasonPhraseChar) then .error .typeError
  else if nullBodyStatus s then .error .typeError
  else .ok ⟨s, statusText, headers, body⟩

/-- Lines 515-541 of the parser source, `parseRawHttpResponse`: split off the
body at the first blank line, split the header part into lines, shift off the
status line (the error branch mirrors the source's `statusLine === undefined`
check), destructure the status line on spaces into protocol / status code /
status text, fold the remaining lines into the header multimap, and build the
`Response`.  `Number(undefined)` is NaN, which is what an absent second token
yields. -/
def parseRawHttpResponse (raw : String) : Except JsError ResponseModel :=
  let hb := splitHeadersBody raw
  let lines := (lineSplit hb.1.data).map String.mk
  match lines with
  | [] => .error (.error "Curl HTTP Response Syntax Error: No status line!")
  | statusLine :: rest =>
    let tokens := spaceSplit statusLine.data
    let status :=
      match tokens[1]? with
      | none => JsNum.nan
      | some ds => jsToNumber (String.mk ds)
    let statusText := String.mk (List.intercalate [' '] (tokens.drop 2))
    let headers := rest.foldl headerStep ⟨[]⟩
    mkResponse hb.2 status statusText headers

example : parseRawHttpResponse "HTTP/1.1 200 OK\r\nX-A: 1\r\nX-A: 2\r\n\r\nbody" =
    .ok ⟨200, "OK", ⟨[("X-A", "1"), ("X-A", "2")]⟩, "body"⟩ := by rfl

example : parseRawHttpResponse "" = .error (.rangeError 0) := by rfl

/-- JSON values, as produced by `JSON.parse`.  Numbers are restricted to
integers: the relay wire contract (spec sections 3 and 6) carries only string
values inside `incomingHeaders` and string/boolean values inside
`oproxy-options`. -/
inductive Json where
  | null
  | bool (b : Bool)
  | num (n : Int)
  | str (s : String)
  | arr (elems : List Json)
  | obj (fields : List (String × Json))

/-- The opening-brace and closing-brace characters. -/
def lbrace : Char := Char.ofNat 123

/-- See `lbrace`. -/
def rbrace : Char := Char.ofNat 125

/-- Property assignment on a JavaScript object: a repeated key keeps its first
position but takes the later value (the duplicate-key behaviour of
`JSON.parse`). -/
def objInsert (fs : List (String × Json)) (k : String) (v : Json) : List (String × Json) :=
  if fs.any (fun p => p.1 == k) then
    fs.map (fun p => if p.1 == k then (k, v) else p)
  else fs ++ [(k, v)]

/-- JSON insignificant whitespace. -/
def skipWs (l : List Char) : List Char :=
  l.dropWhile (fun c => c == ' ' || c == '\t' || c == '\n' || c == '\r')

/-- Value of a hexadecimal digit. -/
def hexVal (c : Char) : Option Nat :=
  if c.isDigit then some (c.toNat - 48)
  else if 'a' ≤ c ∧ c ≤ 'f' then some (c.toNat - 87)
  else if 'A' ≤ c ∧ c ≤ 'F' then some (c.toNat - 55)
  else none

/-- Body of a JSON string after the opening quote: returns the decoded
characters and the input after the closing quote.  Handles the escape forms of
the JSON grammar; raw control characters are rejected as `JSON.parse` rejects
them.  (Astral characters written as surrogate pairs are outside the modelled
domain.) -/
def jpStringChars : List Char → Except JsError (List Char × List Char)
  | [] => .error .jsonSyntaxError
  | '\"' :: rest => .ok ([], rest)
  | '\\' :: esc =>
    match esc with
    | '\"' :: r => (jpStringChars r).map (fun p => ('\"' :: p.1, p.2))
    | '\\' :: r => (jpStringChars r).map (fun p => ('\\' :: p.1, p.2))
    | '/' :: r => (jpStringChars r).map (fun p => ('/' :: p.1, p.2))
    | 'b' :: r => (jpStringChars r).map (fun p => ('\x08' :: p.1, p.2))
    | 'f' :: r => (jpStringChars r).map (fun p => ('\x0c' :: p.1, p.2))
    | 'n' :: r => (jpStringChars r).map (fun p => ('\n' :: p.1, p.2))
    | 'r' :: r => (jpStringChars r).map (fun p => ('\r' :: p.1, p.2))
    | 't' :: r => (jpStringChars r).map (fun p => ('\t' :: p.1, p.2))
    | 'u' :: h1 :: h2 :: h3 :: h4 :: r =>
      match hexVal h1, hexVal h2, hexVal h3, hexVal h4 with
      | some a, some b, some c, some d =>
        (jpStringChars r).map (fun p => (Char.ofNat (((a * 16 + b) * 16 + c) * 16 + d) :: p.1, p.2))
      | _, _, _, _ => .error .jsonSyntaxError
    | _ => .error .jsonSyntaxError
  | c :: rest =>
    if c.toNat < 32 then .error .jsonSyntaxError
    else (jpStringChars rest).map (fun p => (c :: p.1, p.2))

/-- A run of decimal digits (JSON: at least one; no leading zero before
further digits; a following `.`, `e` or `E` would start a non-integer number,
which is outside the modelled domain). -/
def jpDigits (l : List Char) : Except JsError (Nat × List Char) :=
  let ds := l.takeWhile Char.isDigit
  let rest := l.dropWhile Char.isDigit
  match digitsVal ds with
  | none => .error .jsonSyntaxError
  | some n =>
    if ds.length > 1 ∧ ds.headD '0' == '0' then .error .jsonSyntaxError
    else
      match rest with
      | '.' :: _ => .error .jsonSyntaxError
      | 'e' :: _ => .error .jsonSyntaxError
      | 'E' :: _ => .error .jsonSyntaxError
      | _ => .ok (n, rest)

/-- A JSON number token (integer domain, see `Json`). -/
def jpNumber : List Char → Except JsError (Json × List Char)
  | '-' :: rest => (jpDigits rest).map (fun p => (.num (-(p.1 : Int)), p.2))
  | l => (jpDigits l).map (fun p => (.num (p.1 : Int), p.2))

mutual

/-- A JSON value (fuelled recursion; at most three fuel units are spent per
input character consumed, so the fuel `jsonParse` supplies always suffices). -/
def jpVal : Nat → List Char → Except JsError (Json × List Char)
  | 0, _ => .error .jsonSyntaxError
  | fuel + 1, l =>
    match skipWs l with
    | [] => .error .jsonSyntaxError
    | c :: rest =>
      if c == '\"' then (jpStringChars rest).map (fun p => (.str (String.mk p.1), p.2))
      else if c == lbrace then jpObj fuel rest []
      else if c == '[' then jpArr fuel rest []
      else if c == 't' then
        match rest with
        | 'r' :: 'u' :: 'e' :: r => .ok (.bool true, r)
        | _ => .error .jsonSyntaxError
      else if c == 'f' then
        match rest with
        | 'a' :: 'l' :: 's' :: 'e' :: r => .ok (.bool false, r)
        | _ => .error .jsonSyntaxError
      else if c == 'n' then
        match rest with
        | 'u' :: 'l' :: 'l' :: r => .ok (.null, r)
        | _ => .error .jsonSyntaxError
      else jpNumber (c :: rest)

/-- Inside an object, immediately after `{` or after a comma when `acc` is
empty-allowed: accepts `}` (only before the first member) or a member. -/
def jpObj : Nat → List Char → List (String × Json) → Except JsError (Json × List Char)
  | 0, _, _ => .error .jsonSyntaxError
  | fuel + 1, l, acc =>
    match skipWs l with
    | c :: rest =>
      if c == rbrace then .ok (.obj acc, rest)
      else jpObjMember fuel (c :: rest) acc
    | [] => .error .jsonSyntaxError

/-- One object member (`"key": value`) followed by `,` and further members or
by `}`. -/
def jpObjMember : Nat → List Char → List (String × Json) → Except JsError (Json × List Char)
  | 0, _, _ => .error .jsonSyntaxError
  | fuel + 1, l, acc =>
    match skipWs l with
    | '\"' :: rest =>
      match jpStringChars rest with
      | .error e => .error e
      | .ok (k, r) =>
        match skipWs r with
        | ':' :: r2 =>
          match jpVal fuel r2 with
          | .error e => .error e
          | .ok (v, r3) =>
            let acc2 := objInsert acc (String.mk k) v
            match skipWs r3 with
            | ',' :: r4 => jpObjMember fuel r4 acc2
            | c2 :: r4 =>
              if c2 == rbrace then .ok (.obj acc2, r4) else .error .jsonSyntaxError
            | [] => .error .jsonSyntaxError
        | _ => .error .jsonSyntaxError
    | _ => .error .jsonSyntaxError

/-- Inside an array, immediately after `[`: accepts `]` (empty array) or
elements. -/
def jpArr : Nat → List Char → List Json → Except JsError (Json × List Char)
  | 0, _, _ => .error .jsonSyntaxError
  | fuel + 1, l, acc =>
    match skipWs l with
    | ']' :: rest => .ok (.arr acc, rest)
    | l2 => jpArrElem fuel l2 acc

/-- One array element followed by `,` and further elements or by `]`. -/
def jpArrElem : Nat → List Char → List Json → Except JsError (Json × List Char)
  | 0, _, _ => .error .jsonSyntaxError
  | fuel + 1, l, acc =>
    match jpVal fuel l with
    | .error e => .error e
    | .ok (v, r) =>
      match skipWs r with
      | ',' :: r2 => jpArrElem fuel r2 (acc ++ [v])
      | ']' :: r2 => .ok (.arr (acc ++ [v]), r2)
      | _ => .error .jsonSyntaxError

end

/-- `JSON.parse`: parse one value and require only whitespace after it. -/
def jsonParse (s : String) : Except JsError Json :=
  match jpVal (3 * s.length + 3) s.data with
  | .error e => .error e
  | .ok (v, rest) =>
    match skipWs rest with
    | [] => .ok v
    | _ => .error .jsonSyntaxError

example : jsonParse "\x7b\"x-a\": \"1\", \"x-a\": \"2\", \"b\": true\x7d" =
    .ok (.obj [("x-a", .str "2"), ("b", .bool true)]) := by rfl

example : jsonParse "null" = .ok .null := by rfl

example : jsonParse "not json" = .error .jsonSyntaxError := by rfl

/-- The recognized request options of `FetchProxy.fetch` (a `RequestInit`).
Every option is optional; `none` models an absent/undefined member.  `body`
and `signal` are opaque to the client and modelled as opaque strings; `headers`
is the caller's header record. -/
structure RequestInit where
  method : Option String := none
  body : Option String := none
  mode : Option String := none
  keepalive : Option Bool := none
  signal : Option String := none
  credentials : Option String := none
  redirect : Option String := none
  referrer : Option String := none
  referrerPolicy : Option String := none
  integrity : Option String := none
  headers : Option (List (String × String)) := none

/-- One optional string-valued member of an object literal: `JSON.stringify`
omits members whose value is undefined. -/
def optStr (k : String) : Option String → List (String × Json)
  | none => []
  | some v => [(k, .str v)]

/-- One optional boolean-valued member of an object literal (see `optStr`). -/
def optBool (k : String) : Option Bool → List (String × Json)
  | none => []
  | some b => [(k, .bool b)]

/-- Lines 29-38 of `src/Proxy.ts`: the object serialized into the
`oproxy-options` envelope header.  `method` is always present, defaulted to
"GET"; every other member is omitted by `JSON.stringify` when the caller left
it unset. -/
def oproxyOptionsFields (options : RequestInit) : List (String × Json) :=
  [("method", Json.str (options.method.getD "GET"))]
    ++ optStr "mode" options.mode
    ++ optStr "credentials" options.credentials
    ++ optStr "redirect" options.redirect
    ++ optStr "referrer" options.referrer
    ++ optStr "referrerPolicy" options.referrerPolicy
    ++ optStr "integrity" options.integrity
    ++ optBool "keepalive" options.keepalive

/-- The options object handed to the local transport `fetch` call (lines 18-41
of `src/Proxy.ts`).  The three envelope headers are kept in structured form;
on the wire `headerOproxyOptions` and `headerHeaders` are the `JSON.stringify`
renderings of these values, carried under the header names `endpoint`,
`oproxy-options` and `headers`. -/
structure ConfiguredOptions where
  method : String
  body : Option String
  mode : Option String
  keepalive : Option Bool
  signal : Option String
  credentials : Option String
  redirect : String
  headerEndpoint : String
  headerOproxyOptions : Json
  headerHeaders : Json

namespace FetchProxy

/-- Lines 18-41 of `src/Proxy.ts`: build the configured transport options.
`method` defaults to "GET", `body`/`mode`/`keepalive`/`signal`/`credentials`
are forwarded as-is, the local `redirect` is the literal "manual", and the
envelope headers carry the target endpoint, the serialized `oproxy-options`
object and the serialized caller headers (`"{}"`, the empty object, when the
caller supplied none). -/
def configuredOptions (endpoint : String) (options : RequestInit) : ConfiguredOptions :=
  { method := options.method.getD "GET"
    body := options.body
    mode := options.mode
    keepalive := options.keepalive
    signal := options.signal
    credentials := options.credentials
    redirect := "manual"
    headerEndpoint := endpoint
    headerOproxyOptions := .obj (oproxyOptionsFields options)
    headerHeaders :=
      match options.headers with
      | none => .obj []
      | some hs => .obj (hs.map (fun p => (p.1, Json.str p.2))) }

end FetchProxy

/-- The physical reply the transport returns from the relay call: its
transport-level status and its own header collection.  (Status text and body
pass through `FetchProxy.fetch` untouched and play no role in its logic.) -/
structure PhysicalReply where
  status : Nat
  headers : JsHeaders

/-- The value `FetchProxy.fetch` returns: the response whose `status` getter
yields the resolved status, whose `headers` getter yields `headersResult`
(reading it can throw, because the override getter lazily constructs
`new Headers(decodedValue)`), and whose `proxyHeaders` getter yields the
physical reply's own header collection. -/
structure ProxyResponseModel where
  status : JsNum
  headersResult : Except JsError JsHeaders
  proxyHeaders : JsHeaders

mutual

/-- JavaScript ToString of a JSON value, as the `Headers` record conversion
applies it to non-string property values. -/
def jsToString : Json → String
  | .null => "null"
  | .bool true => "true"
  | .bool false => "false"
  | .num n => toString n
  | .str s => s
  | .arr es => String.intercalate "," (jsToStringElems es)
  | .obj _ => "[object Object]"

/-- Array elements under `Array.prototype.toString`: null renders empty. -/
def jsToStringElems : List Json → List String
  | [] => []
  | .null :: rest => "" :: jsToStringElems rest
  | e :: rest => jsToString e :: jsToStringElems rest

end

/-- `new Headers(decoded)` for a decoded `incomingHeaders` value: a JSON
object is converted as a WebIDL record (property order kept, values
ToString-ed); anything else throws a TypeError.  (The relay contract, spec
section 6, defines `incomingHeaders` as a JSON-encoded header object; the
sequence-of-pairs initializer form is outside the modelled domain.) -/
def headersFromJson : Json → Except JsError JsHeaders
  | .obj fields => .ok ⟨fields.map (fun p => (p.1, jsToString p.2))⟩
  | _ => .error .typeError

namespace FetchProxy

/-- Lines 42-58 of `src/Proxy.ts`: decode the physical relay reply.  If an
`incomingHeaders` header is present its value is `JSON.parse`d (a parse
failure propagates); if a `receivedStatus` header is present its value is
`Number`-coerced, otherwise the transport status is kept.  The `headers`
accessor is overridden only when the decoded value is non-null; the original
physical headers are always exposed as `proxyHeaders`. -/
def decodeReply (res : PhysicalReply) : Except JsError ProxyResponseModel :=
  let parsed : Except JsError (Option Json) :=
    if res.headers.has "incomingHeaders" then
      match jsonParse ((res.headers.get "incomingHeaders").getD "") with
      | .error e => .error e
      | .ok v => .ok (some v)
    else .ok none
  match parsed with
  | .error e => .error e
  | .ok receivedHeaders =>
    let receivedStatus : JsNum :=
      if res.headers.has "receivedStatus" then
        jsToNumber ((res.headers.get "receivedStatus").getD "")
      else .num res.status
    let override : Option Json :=
      match receivedHeaders with
      | some Json.null => none
      | some v => some v
      | none => none
    .ok
      { status := receivedStatus
        headersResult :=
          match override with
          | some v => headersFromJson v
          | none => .ok res.headers
        proxyHeaders := res.headers }

end FetchProxy

example :
    FetchProxy.decodeReply ⟨200, ⟨[("receivedStatus", "404")]⟩⟩ =
      .ok ⟨.num 404, .ok ⟨[("receivedStatus", "404")]⟩, ⟨[("receivedStatus", "404")]⟩⟩ := by rfl

example :
    FetchProxy.decodeReply ⟨200, ⟨[("incomingHeaders", "\x7b\"x-a\":\"1\"\x7d")]⟩⟩ =
      .ok ⟨.num 200, .ok ⟨[("x-a", "1")]⟩, ⟨[("incomingHeaders", "\x7b\"x-a\":\"1\"\x7d")]⟩⟩ := by rfl

example :
    FetchProxy.decodeReply ⟨200, ⟨[("incomingHeaders", "bad json")]⟩⟩ =
      .error .jsonSyntaxError := by rfl

example :
    FetchProxy.decodeReply ⟨200, ⟨[("receivedStatus", "abc")]⟩⟩ =
      .ok ⟨.nan, .ok ⟨[("receivedStatus", "abc")]⟩, ⟨[("receivedStatus", "abc")]⟩⟩ := by rfl

theorem decodeReply_no_incoming (res : PhysicalReply)
    (h : res.headers.has "incomingHeaders" = false) :
    FetchProxy.decodeReply res =
      .ok ⟨if res.headers.has "receivedStatus" then
             jsToNumber ((res.headers.get "receivedStatus").getD "")
           else .num res.status,
           .ok res.headers, res.headers⟩ := by
  simp [FetchProxy.decodeReply, h]

theorem decodeReply_incoming_obj (res : PhysicalReply) (sv : String)
    (fields : List (String × Json))
    (hget : res.headers.get "incomingHeaders" = some sv)
    (hparse : jsonParse sv = .ok (.obj fields)) :
    FetchProxy.decodeReply res =
      .ok ⟨if res.headers.has "receivedStatus" then
             jsToNumber ((res.headers.get "receivedStatus").getD "")
           else .num res.status,
           headersFromJson (.obj fields), res.headers⟩ := by
  have hhas : res.headers.has "incomingHeaders" = true := by
    simp [JsHeaders.has, hget]
  simp [FetchProxy.decodeReply, hhas, hget, hparse]

theorem decodeReply_incoming_err (res : PhysicalReply) (sv : String) (e : JsError)
    (hget : res.headers.get "incomingHeaders" = some sv)
    (hparse : jsonParse sv = .error e) :
    FetchProxy.decodeReply res = .error e := by
  have hhas : res.headers.has "incomingHeaders" = true := by
    simp [JsHeaders.has, hget]
  simp [FetchProxy.decodeReply, hhas, hget, hparse]

theorem decodeReply_ok_status (res : PhysicalReply) (r : ProxyResponseModel)
    (h : FetchProxy.decodeReply res = .ok r) :
    r.status = if res.headers.has "receivedStatus" then
        jsToNumber ((res.headers.get "receivedStatus").getD "")
      else .num res.status := by
  simp only [FetchProxy.decodeReply] at h
  split at h
  · cases h
  · injection h with h2
    subst h2
    rfl

/-- C1: if the physical relay reply carries an `incomingHeaders` header whose
value decodes to a JSON header object, the returned response's header
collection is exactly the decoded record, and the physical reply's original
headers stay accessible through `proxyHeaders`; and if the reply carries no
`incomingHeaders` header, the returned response's headers are the physical
reply's own headers (with `proxyHeaders` again the physical headers). -/
theorem fetch_headers_override (res : PhysicalReply) :
    (∀ sv fields r, res.headers.get "incomingHeaders" = some sv →
        jsonParse sv = .ok (.obj fields) →
        FetchProxy.decodeReply res = .ok r →
        r.headersResult = .ok ⟨fields.map (fun p => (p.1, jsToString p.2))⟩ ∧
        r.proxyHeaders = res.headers) ∧
    (∀ r, res.headers.has "incomingHeaders" = false →
        FetchProxy.decodeReply res = .ok r →
        r.headersResult = .ok res.headers ∧ r.proxyHeaders = res.headers) := by
  constructor
  · intro sv fields r hget hparse hok
    rw [decodeReply_incoming_obj res sv fields hget hparse] at hok
    injection hok with h2
    subst h2
    exact ⟨rfl, rfl⟩
  · intro r hnone hok
    rw [decodeReply_no_incoming res hnone] at hok
    injection hok with h2
    subst h2
    exact ⟨rfl, rfl⟩

/-- Witness for C1 at concrete replies: an `incomingHeaders` value of
`{"x-a":"1"}` replaces the header collection while `proxyHeaders` keeps the
physical entry, and a reply without `incomingHeaders` keeps its own headers. -/
theorem fetch_headers_override_witness :
    ProxyResponseModel.headersResult
        ⟨.num 200, .ok ⟨[("x-a", "1")]⟩, ⟨[("incomingHeaders", "\x7b\"x-a\":\"1\"\x7d")]⟩⟩ =
      .ok ⟨[("x-a", "1")]⟩ ∧
    ProxyResponseModel.proxyHeaders
        ⟨.num 200, .ok ⟨[("x-a", "1")]⟩, ⟨[("incomingHeaders", "\x7b\"x-a\":\"1\"\x7d")]⟩⟩ =
      ⟨[("incomingHeaders", "\x7b\"x-a\":\"1\"\x7d")]⟩ ∧
    ProxyResponseModel.headersResult ⟨.num 201, .ok ⟨[("x-plain", "v")]⟩, ⟨[("x-plain", "v")]⟩⟩ =
      .ok ⟨[("x-plain", "v")]⟩ := by
  refine ⟨?_, ?_, ?_⟩
  · exact ((fetch_headers_override ⟨200, ⟨[("incomingHeaders", "\x7b\"x-a\":\"1\"\x7d")]⟩⟩).1
      "\x7b\"x-a\":\"1\"\x7d" [("x-a", Json.str "1")] _ rfl rfl rfl).1
  · exact ((fetch_headers_override ⟨200, ⟨[("incomingHeaders", "\x7b\"x-a\":\"1\"\x7d")]⟩⟩).1
      "\x7b\"x-a\":\"1\"\x7d" [("x-a", Json.str "1")] _ rfl rfl rfl).2
  · exact ((fetch_headers_override ⟨201, ⟨[("x-plain", "v")]⟩⟩).2 _ rfl rfl).1

/-- C2: if the physical relay reply carries a `receivedStatus` header whose
value Number-coerces to the integer N, the returned response's status is N
(regardless of the physical transport status); if the header is absent, the
returned status is the physical reply's own status. -/
theorem fetch_status_override (res : PhysicalReply) :
    (∀ sv N r, res.headers.get "receivedStatus" = some sv → jsToNumber sv = .num N →
        FetchProxy.decodeReply res = .ok r → r.status = .num N) ∧
    (∀ r, res.headers.has "receivedStatus" = false →
        FetchProxy.decodeReply res = .ok r → r.status = .num res.status) := by
  constructor
  · intro sv N r hget hnum hok
    have hhas : res.headers.has "receivedStatus" = true := by
      simp [JsHeaders.has, hget]
    rw [decodeReply_ok_status res r hok, hhas]
    simp [hget, hnum]
  · intro r hnone hok
    rw [decodeReply_ok_status res r hok, hnone]
    simp

/-- Witness for C2 at concrete replies: a `receivedStatus` of "404" on a reply
whose transport status is 200 yields status 404, and a reply without
`receivedStatus` keeps its transport status 418. -/
theorem fetch_status_override_witness :
    ProxyResponseModel.status
        ⟨.num 404, .ok ⟨[("receivedStatus", "404")]⟩, ⟨[("receivedStatus", "404")]⟩⟩ =
      .num 404 ∧
    ProxyResponseModel.status ⟨.num 418, .ok ⟨[]⟩, ⟨[]⟩⟩ = .num 418 := by
  constructor
  · exact (fetch_status_override ⟨200, ⟨[("receivedStatus", "404")]⟩⟩).1 "404" 404 _ rfl rfl rfl
  · exact (fetch_status_override ⟨418, ⟨[]⟩⟩).2 _ rfl rfl

/-- C3: the options of the local transport call always carry redirect policy
"manual", whatever `redirect` the caller supplied, and the caller's requested
redirect value appears (or is omitted when unset) inside the serialized
`oproxy-options` envelope object instead. -/
theorem fetch_redirect_manual (e : String) (opts : RequestInit) :
    (FetchProxy.configuredOptions e opts).redirect = "manual" ∧
    (FetchProxy.configuredOptions e opts).headerOproxyOptions = .obj (oproxyOptionsFields opts) ∧
    List.lookup "redirect" (oproxyOptionsFields opts) = opts.redirect.map Json.str := by
  refine ⟨rfl, rfl, ?_⟩
  rcases opts with ⟨m, b, mo, k, si, c, re, rf, rp, i, hd⟩
  cases mo <;> cases c <;> cases re <;> cases rf <;> cases rp <;> cases i <;> cases k <;> rfl

theorem lookup_skip_cons (k k' : String) (v : Json) (rest : List (String × Json))
    (h : (k == k') = false) :
    List.lookup k ((k', v) :: rest) = List.lookup k rest := by
  simp [List.lookup, h]

theorem lookup_skip_optStr (k k' : String) (o : Option String) (rest : List (String × Json))
    (h : (k == k') = false) :
    List.lookup k (optStr k' o ++ rest) = List.lookup k rest := by
  cases o <;> simp [optStr, List.lookup, h]

theorem lookup_skip_optBool (k k' : String) (o : Option Bool) (rest : List (String × Json))
    (h : (k == k') = false) :
    List.lookup k (optBool k' o ++ rest) = List.lookup k rest := by
  cases o <;> simp [optBool, List.lookup, h]

theorem lookup_optBool_end (k k' : String) (o : Option Bool)
    (h : (k == k') = false) :
    List.lookup k (optBool k' o) = none := by
  cases o <;> simp [optBool, List.lookup, h]

/-- C4: the serialized `oproxy-options` envelope omits each of the seven
recognized options the caller left unset instead of substituting a default,
while `method` defaults to "GET" and appears with the same value in both the
local transport call's options and the envelope. -/
theorem envelope_omits_unset (opts : RequestInit) :
    (opts.mode = none → List.lookup "mode" (oproxyOptionsFields opts) = none) ∧
    (opts.credentials = none → List.lookup "credentials" (oproxyOptionsFields opts) = none) ∧
    (opts.redirect = none → List.lookup "redirect" (oproxyOptionsFields opts) = none) ∧
    (opts.referrer = none → List.lookup "referrer" (oproxyOptionsFields opts) = none) ∧
    (opts.referrerPolicy = none → List.lookup "referrerPolicy" (oproxyOptionsFields opts) = none) ∧
    (opts.integrity = none → List.lookup "integrity" (oproxyOptionsFields opts) = none) ∧
    (opts.keepalive = none → List.lookup "keepalive" (oproxyOptionsFields opts) = none) ∧
    List.lookup "method" (oproxyOptionsFields opts) = some (.str (opts.method.getD "GET")) ∧
    (∀ e, (FetchProxy.configuredOptions e opts).method = opts.method.getD "GET") := by
  refine ⟨?_, ?_, ?_, ?_, ?_, ?_, ?_, rfl, fun e => rfl⟩ <;> intro h <;>
    simp only [oproxyOptionsFields, h, List.append_assoc, List.singleton_append,
      List.cons_append, List.nil_append]
  · rw [lookup_skip_cons "mode" "method" _ _ rfl,
      show optStr "mode" none = [] from rfl, List.nil_append,
      lookup_skip_optStr "mode" "credentials" _ _ rfl,
      lookup_skip_optStr "mode" "redirect" _ _ rfl,
      lookup_skip_optStr "mode" "referrer" _ _ rfl,
      lookup_skip_optStr "mode" "referrerPolicy" _ _ rfl,
      lookup_skip_optStr "mode" "integrity" _ _ rfl]
    exact lookup_optBool_end "mode" "keepalive" _ rfl
  · rw [lookup_skip_cons "credentials" "method" _ _ rfl,
      lookup_skip_optStr "credentials" "mode" _ _ rfl,
      show optStr "credentials" none = [] from rfl, List.nil_append,
      lookup_skip_optStr "credentials" "redirect" _ _ rfl,
      lookup_skip_optStr "credentials" "referrer" _ _ rfl,
      lookup_skip_optStr "credentials" "referrerPolicy" _ _ rfl,
      lookup_skip_optStr "credentials" "integrity" _ _ rfl]
    exact lookup_optBool_end "credentials" "keepalive" _ rfl
  · rw [lookup_skip_cons "redirect" "method" _ _ rfl,
      lookup_skip_optStr "redirect" "mode" _ _ rfl,
      lookup_skip_optStr "redirect" "credentials" _ _ rfl,
      show optStr "redirect" none = [] from rfl, List.nil_append,
      lookup_skip_optStr "redirect" "referrer" _ _ rfl,
      lookup_skip_optStr "redirect" "referrerPolicy" _ _ rfl,
      lookup_skip_optStr "redirect" "integrity" _ _ rfl]
    exact lookup_optBool_end "redirect" "keepalive" _ rfl
  · rw [lookup_skip_cons "referrer" "method" _ _ rfl,
      lookup_skip_optStr "referrer" "mode" _ _ rfl,
      lookup_skip_optStr "referrer" "credentials" _ _ rfl,
      lookup_skip_optStr "referrer" "redirect" _ _ rfl,
      show optStr "referrer" none = [] from rfl, List.nil_append,
      lookup_skip_optStr "referrer" "referrerPolicy" _ _ rfl,
      lookup_skip_optStr "referrer" "integrity" _ _ rfl]
    exact lookup_optBool_end "referrer" "keepalive" _ rfl
  · rw [lookup_skip_cons "referrerPolicy" "method" _ _ rfl,
      lookup_skip_optStr "referrerPolicy" "mode" _ _ rfl,
      lookup_skip_optStr "referrerPolicy" "credentials" _ _ rfl,
      lookup_skip_optStr "referrerPolicy" "redirect" _ _ rfl,
      lookup_skip_optStr "referrerPolicy" "referrer" _ _ rfl,
      show optStr "referrerPolicy" none = [] from rfl, List.nil_append,
      lookup_skip_optStr "referrerPolicy" "integrity" _ _ rfl]
    exact lookup_optBool_end "referrerPolicy" "keepalive" _ rfl
  · rw [lookup_skip_cons "integrity" "method" _ _ rfl,
      lookup_skip_optStr "integrity" "mode" _ _ rfl,
      lookup_skip_optStr "integrity" "credentials" _ _ rfl,
      lookup_skip_optStr "integrity" "redirect" _ _ rfl,
      lookup_skip_optStr "integrity" "referrer" _ _ rfl,
      lookup_skip_optStr "integrity" "referrerPolicy" _ _ rfl,
      show optStr "integrity" none = [] from rfl, List.nil_append]
    exact lookup_optBool_end "integrity" "keepalive" _ rfl
  · rw [lookup_skip_cons "keepalive" "method" _ _ rfl,
      lookup_skip_optStr "keepalive" "mode" _ _ rfl,
      lookup_skip_optStr "keepalive" "credentials" _ _ rfl,
      lookup_skip_optStr "keepalive" "redirect" _ _ rfl,
      lookup_skip_optStr "keepalive" "referrer" _ _ rfl,
      lookup_skip_optStr "keepalive" "referrerPolicy" _ _ rfl,
      lookup_skip_optStr "keepalive" "integrity" _ _ rfl]
    rw [show optBool "keepalive" none = [] from rfl]
    rfl

/-- Witness for C4 at the all-unset request options: every recognized option
is absent from the envelope and `method` is "GET" in both places. -/
theorem envelope_omits_unset_witness :
    List.lookup "mode" (oproxyOptionsFields {}) = none ∧
    List.lookup "credentials" (oproxyOptionsFields {}) = none ∧
    List.lookup "redirect" (oproxyOptionsFields {}) = none ∧
    List.lookup "referrer" (oproxyOptionsFields {}) = none ∧
    List.lookup "referrerPolicy" (oproxyOptionsFields {}) = none ∧
    List.lookup "integrity" (oproxyOptionsFields {}) = none ∧
    List.lookup "keepalive" (oproxyOptionsFields {}) = none ∧
    List.lookup "method" (oproxyOptionsFields {}) = some (.str "GET") ∧
    (FetchProxy.configuredOptions "https://relay.example" {}).method = "GET" := by
  obtain ⟨h1, h2, h3, h4, h5, h6, h7, h8, h9⟩ := envelope_omits_unset {}
  exact ⟨h1 rfl, h2 rfl, h3 rfl, h4 rfl, h5 rfl, h6 rfl, h7 rfl, h8, h9 "https://relay.example"⟩

/-- C5 (code bug): parsing the empty string does not raise the parser's own
"No status line" syntax error — splitting always yields at least one (empty)
line, so the `statusLine === undefined` guard can never fire.  Instead the
parse reaches the `Response` constructor with status `Number(undefined)` (NaN,
converted to 0) and fails with the platform RangeError. -/
theorem parse_empty_is_range_error :
    parseRawHttpResponse "" = .error (.rangeError 0) := by rfl

/-- C6 counterexample: a relay reply whose `receivedStatus` value is the
non-numeric string "abc" does not make `FetchProxy.fetch` propagate any parse
failure — `Number("abc")` is NaN, never a thrown error — so the call returns
successfully with NaN as the response status. -/
theorem fetch_nonnumeric_status_cex :
    FetchProxy.decodeReply ⟨200, ⟨[("receivedStatus", "abc")]⟩⟩ =
      .ok ⟨.nan, .ok ⟨[("receivedStatus", "abc")]⟩, ⟨[("receivedStatus", "abc")]⟩⟩ := by rfl

/-- C6 (amended): a non-numeric `receivedStatus` is not an error: its Number
coercion (NaN) silently becomes the returned response's status; malformed JSON
in `incomingHeaders`, by contrast, does propagate as a native parse failure. -/
theorem fetch_nonnumeric_status_nan (res : PhysicalReply) :
    (∀ sv r, res.headers.get "receivedStatus" = some sv → jsToNumber sv = .nan →
        FetchProxy.decodeReply res = .ok r → r.status = .nan) ∧
    (∀ sv e, res.headers.get "incomingHeaders" = some sv → jsonParse sv = .error e →
        FetchProxy.decodeReply res = .error e) := by
  constructor
  · intro sv r hget hnan hok
    have hhas : res.headers.has "receivedStatus" = true := by
      simp [JsHeaders.has, hget]
    rw [decodeReply_ok_status res r hok, hhas]
    simp [hget, hnan]
  · intro sv e hget hparse
    exact decodeReply_incoming_err res sv e hget hparse

/-- Witness for the amended C6 at concrete replies: `receivedStatus: "abc"`
yields status NaN on a successful return, and `incomingHeaders: "bad"` yields
a propagated JSON syntax error. -/
theorem fetch_nonnumeric_status_nan_witness :
    ProxyResponseModel.status
        ⟨.nan, .ok ⟨[("receivedStatus", "abc")]⟩, ⟨[("receivedStatus", "abc")]⟩⟩ = .nan ∧
    FetchProxy.decodeReply ⟨200, ⟨[("incomingHeaders", "bad")]⟩⟩ = .error .jsonSyntaxError := by
  constructor
  · exact (fetch_nonnumeric_status_nan ⟨200, ⟨[("receivedStatus", "abc")]⟩⟩).1 "abc" _ rfl rfl rfl
  · exact (fetch_nonnumeric_status_nan ⟨200, ⟨[("incomingHeaders", "bad")]⟩⟩).2 "bad" _ rfl rfl

/-- C7: the example response parses to status 200, status text "OK", the
header name X-A holding the values "1" then "2" in order, and body "body". -/
theorem parse_example_response :
    parseRawHttpResponse "HTTP/1.1 200 OK\r\nX-A: 1\r\nX-A: 2\r\n\r\nbody" =
      .ok ⟨200, "OK", ⟨[("X-A", "1"), ("X-A", "2")]⟩, "body"⟩ ∧
    JsHeaders.getAll ⟨[("X-A", "1"), ("X-A", "2")]⟩ "X-A" = ["1", "2"] := ⟨rfl, rfl⟩

theorem mkResponse_ok_bounds (body : String) (status : JsNum) (statusText : String)
    (headers : JsHeaders) (r : ResponseModel)
    (h : mkResponse body status statusText headers = .ok r) :
    200 ≤ r.status ∧ r.status ≤ 599 := by
  simp only [mkResponse] at h
  split at h
  · cases h
  · split at h
    · cases h
    · split at h
      · cases h
      · injection h with h2
        subst h2
        dsimp only
        omega

theorem parse_ok_status_bounds (raw : String) (r : ResponseModel)
    (h : parseRawHttpResponse raw = .ok r) : 200 ≤ r.status ∧ r.status ≤ 599 := by
  simp only [parseRawHttpResponse] at h
  split at h
  · cases h
  · exact mkResponse_ok_bounds _ _ _ _ _ h

/-- C10 counterexample: a relay reply carrying `receivedStatus: "0"` makes
`FetchProxy.fetch` return a response whose status is 0 — not a positive
integer — so the claimed invariant fails for the tunneling client. -/
theorem fetch_status_zero_cex :
    FetchProxy.decodeReply ⟨200, ⟨[("receivedStatus", "0")]⟩⟩ =
      .ok ⟨.num 0, .ok ⟨[("receivedStatus", "0")]⟩, ⟨[("receivedStatus", "0")]⟩⟩ := by rfl

/-- C10 (amended): every response the raw parser produces has a positive
status (the platform constructor confines it to 200..599), and the tunneling
client defaults the status to the transport-reported one exactly when no
`receivedStatus` header is present; a present `receivedStatus` is used
verbatim after Number coercion and need not be a positive integer. -/
theorem status_invariant_amended :
    (∀ raw r, parseRawHttpResponse raw = .ok r → 0 < r.status ∧ r.status ≤ 599) ∧
    (∀ res r, FetchProxy.decodeReply res = .ok r →
        res.headers.has "receivedStatus" = false → r.status = .num res.status) := by
  constructor
  · intro raw r h
    have := parse_ok_status_bounds raw r h
    omega
  · intro res r hok hnone
    rw [decodeReply_ok_status res r hok, hnone]
    simp

/-- Witness for the amended C10 at concrete inputs: the example parse yields
the positive status 200, and a reply without `receivedStatus` keeps its
transport status. -/
theorem status_invariant_amended_witness :
    (0 < ResponseModel.status ⟨200, "OK", ⟨[("X-A", "1"), ("X-A", "2")]⟩, "body"⟩ ∧
      ResponseModel.status ⟨200, "OK", ⟨[("X-A", "1"), ("X-A", "2")]⟩, "body"⟩ ≤ 599) ∧
    ProxyResponseModel.status ⟨.num 503, .ok ⟨[("retry-after", "5")]⟩, ⟨[("retry-after", "5")]⟩⟩ =
      .num 503 := by
  constructor
  · exact status_invariant_amended.1 "HTTP/1.1 200 OK\r\nX-A: 1\r\nX-A: 2\r\n\r\nbody" _ rfl
  · exact status_invariant_amended.2 ⟨503, ⟨[("retry-after", "5")]⟩⟩ _ rfl rfl

/-- C8: a header line without a colon is skipped (no entry, no error); a line
with a colon contributes the trimmed text before the first colon as name and
the trimmed text after it as value; and appending a value for an
already-present name keeps the earlier values, adding the new one after
them. -/
theorem header_line_handling (h : JsHeaders) (line : String) :
    (line.data.findIdx? (fun c => c == ':') = none → headerStep h line = h) ∧
    (∀ i, line.data.findIdx? (fun c => c == ':') = some i →
      headerStep h line =
        h.append (String.mk (trimChars (line.data.take i)))
          (String.mk (trimChars (line.data.drop (i + 1))))) ∧
    (∀ n v, (h.append n v).getAll n = h.getAll n ++ [v]) := by
  refine ⟨?_, ?_, ?_⟩
  · intro hn
    simp [headerStep, hn]
  · intro i hi
    simp [headerStep, hi]
  · intro n v
    simp [JsHeaders.append, JsHeaders.getAll, List.filter_append]

/-- Witness for C8 at concrete lines: "malformed-line" is skipped, "X-A: 1"
contributes the entry ("X-A", "1"), and appending "2" under the
case-insensitively equal name "x-a" yields the value list ["1", "2"]. -/
theorem header_line_handling_witness :
    headerStep ⟨[]⟩ "malformed-line" = ⟨[]⟩ ∧
    headerStep ⟨[]⟩ "X-A: 1" = JsHeaders.append ⟨[]⟩ "X-A" "1" ∧
    (JsHeaders.append ⟨[("X-A", "1")]⟩ "x-a" "2").getAll "x-a" = ["1", "2"] := by
  refine ⟨?_, ?_, ?_⟩
  · exact (header_line_handling ⟨[]⟩ "malformed-line").1 rfl
  · exact (header_line_handling ⟨[]⟩ "X-A: 1").2.1 3 rfl
  · exact (header_line_handling ⟨[("X-A", "1")]⟩ "").2.2 "x-a" "2"

/-- The four character sequences the blank-line pattern can match: both
line-ending styles on each side of the boundary. -/
def blankSeps : List (List Char) :=
  [['\n', '\n'], ['\r', '\n', '\n'], ['\n', '\r', '\n'], ['\r', '\n', '\r', '\n']]

/-- No blank-line boundary starts at any position inside `l`, also accounting
for the characters `tail` that will follow `l` in the scanned input. -/
def cleanUntil : List Char → List Char → Bool
  | [], _ => true
  | c :: rest, tail => !isBlankStart (c :: (rest ++ tail)) && cleanUntil rest tail

theorem blankSplit_cons_not (c : Char) (rest : List Char)
    (h : isBlankStart (c :: rest) = false) :
    blankSplit (c :: rest) = consHead c (blankSplit rest) := by
  rw [blankSplit.eq_def]
  split <;> simp_all [isBlankStart]

theorem blankSplit_sep (sep tail : List Char) (h : sep ∈ blankSeps) :
    blankSplit (sep ++ tail) = [] :: blankSplit tail := by
  simp only [blankSeps, List.mem_cons, List.mem_singleton, List.not_mem_nil, or_false] at h
  rcases h with h | h | h | h <;> subst h <;> rfl

theorem blankSplit_chunk (a : List Char) :
    ∀ tail p ps, cleanUntil a tail = true → blankSplit tail = p :: ps →
      blankSplit (a ++ tail) = (a ++ p) :: ps := by
  induction a with
  | nil =>
    intro tail p ps _ hbs
    simpa using hbs
  | cons c a ih =>
    intro tail p ps hc hbs
    rw [cleanUntil] at hc
    rw [Bool.and_eq_true, Bool.not_eq_true'] at hc
    have hstep := blankSplit_cons_not c (a ++ tail) hc.1
    calc blankSplit ((c :: a) ++ tail) = blankSplit (c :: (a ++ tail)) := by
          rw [List.cons_append]
      _ = consHead c (blankSplit (a ++ tail)) := hstep
      _ = consHead c ((a ++ p) :: ps) := by rw [ih tail p ps hc.2 hbs]
      _ = ((c :: a) ++ p) :: ps := by simp [consHead]

/-- The raw text after the header chunk: each pair is one blank-line boundary
followed by the chunk of text after it, so a list of `n` pairs encodes an
input with exactly `n` blank-line boundaries. -/
def sepJoin : List (List Char × List Char) → List Char
  | [] => []
  | (sep, chunk) :: rest => sep ++ (chunk ++ sepJoin rest)

/-- Well-formedness of the boundary/chunk list: every separator is one of the
blank-line forms and no chunk contains a further boundary (also accounting for
the characters that follow it), so the listed boundaries are exactly the
boundaries of the encoded input. -/
def cleanChunks : List (List Char × List Char) → Bool
  | [] => true
  | (sep, chunk) :: rest =>
    decide (sep ∈ blankSeps) && cleanUntil chunk (sepJoin rest) && cleanChunks rest

theorem blankSplit_sepJoin (pairs : List (List Char × List Char)) :
    cleanChunks pairs = true →
      blankSplit (sepJoin pairs) = [] :: pairs.map (fun p => p.2) := by
  induction pairs with
  | nil =>
    intro _
    rfl
  | cons p rest ih =>
    intro hp
    obtain ⟨sep, chunk⟩ := p
    simp only [cleanChunks, Bool.and_eq_true, decide_eq_true_eq] at hp
    obtain ⟨⟨hsep, hchunk⟩, hrest⟩ := hp
    simp only [sepJoin]
    rw [blankSplit_sep sep (chunk ++ sepJoin rest) hsep]
    rw [blankSplit_chunk chunk (sepJoin rest) [] (rest.map (fun p => p.2)) hchunk (ih hrest)]
    simp

/-- C9: for every raw input containing more than one blank-line boundary (each
boundary in either line-ending style), only the first boundary divides the
header part from the body; all later boundaries are kept inside the body,
whose parts are rejoined with the normalized "\n\n".  The input is presented
as its header chunk `a` followed by one `(boundary, chunk)` pair per
blank-line boundary; the `cleanUntil`/`cleanChunks` hypotheses say exactly
that the listed boundaries are all the boundaries the input contains. -/
theorem body_rejoined_after_first_boundary (a : List Char)
    (pairs : List (List Char × List Char)) (hlen : 2 ≤ pairs.length)
    (ha : cleanUntil a (sepJoin pairs) = true)
    (hp : cleanChunks pairs = true) :
    splitHeadersBody (String.mk (a ++ sepJoin pairs)) =
      (String.mk a,
       String.mk (List.intercalate ['\n', '\n'] (pairs.map (fun p => p.2)))) := by
  have h1 := blankSplit_sepJoin pairs hp
  have h2 := blankSplit_chunk a (sepJoin pairs) [] (pairs.map (fun p => p.2)) ha h1
  simp only [List.append_nil] at h2
  simp [splitHeadersBody, h2]

/-- Witness for C9 at a concrete raw input with three blank-line boundaries in
mixed line-ending styles: the header part is the text before the first
boundary, and the body rejoins the chunks after the first, second and third
boundaries with the normalized "\n\n". -/
theorem body_rejoined_after_first_boundary_witness :
    splitHeadersBody (String.mk ("HTTP/1.1 200 OK".data ++
        sepJoin [(['\n', '\n'], "AB".data), (['\r', '\n', '\r', '\n'], "CD".data),
          (['\r', '\n', '\n'], "EF".data)])) =
      (String.mk "HTTP/1.1 200 OK".data,
       String.mk (List.intercalate ['\n', '\n'] ["AB".data, "CD".data, "EF".data])) :=
  body_rejoined_after_first_boundary "HTTP/1.1 200 OK".data
    [(['\n', '\n'], "AB".data), (['\r', '\n', '\r', '\n'], "CD".data),
      (['\r', '\n', '\n'], "EF".data)]
    (by decide) (by decide) (by decide)
